import Mathlib

/-!
Shallow embedding of the client-side transaction submission and confirmation
pipeline of `apps/src/lib/client/tx.rs`, together with proofs of the
specification's claims about it.

The embedding covers:
* the JSON event payload model and the `From<serde_json::Value> for TxResponse`
  decoder (lines 556-593 of `tx.rs`), with Rust `unwrap` panics modelled as
  `Except.error`;
* the double JSON encoding of `initialized_accounts` and its round trip;
* the `broadcast_tx` confirmation protocol (lines 516-544) as a trace of
  operations issued against a transport whose per-step outcomes are a
  parameter, so every control path of the function is covered;
* `submit_tx` (lines 419-448) and `save_initialized_accounts` (lines 451-514),
  the alias-assignment loop modelled with explicit fuel for the retry loop and
  an explicit list of stdin lines for the interactive branch.
-/

namespace AnomaTx

/-- JSON values, the model of `serde_json::Value`.  Numbers are modelled as
integers; the confirmation events under study only carry strings, arrays and
objects. -/
inductive Json where
  | null : Json
  | bool (b : Bool) : Json
  | num (n : Int) : Json
  | str (s : String) : Json
  | arr (xs : List Json) : Json
  | obj (fields : List (String × Json)) : Json

/-- Characters admissible in the canonical string encoding of an address.
Anoma addresses are bech32m strings: lowercase letters and digits.  In
particular no double quote and no backslash ever occurs, which is what the
JSON round trip relies on. -/
def addrChar (c : Char) : Bool :=
  c.isLower || c.isDigit

/-- Modelled from the spec: `anoma::types::address::Address` (external to
`src/`) is an opaque identifier with a canonical string encoding (`encode`),
here a lowercase-alphanumeric (bech32-style) string.  `serde` serializes an
address as that string. -/
structure Address where
  enc : String
  valid : enc.data.all addrChar = true

instance : DecidableEq Address := fun a b =>
  if h : a.enc = b.enc then
    isTrue (by cases a; cases b; simp only at h; subst h; rfl)
  else
    isFalse (by intro hab; exact h (congrArg Address.enc hab))

/-- First binding of a key in a JSON object field list. -/
def jsonLookup : List (String × Json) → String → Option Json
  | [], _ => none
  | (k, v) :: rest, key => if k = key then some v else jsonLookup rest key

/-- Field access on a JSON object; `none` on any other constructor. -/
def Json.getField : Json → String → Option Json
  | .obj fields, key => jsonLookup fields key
  | _, _ => none

/-- The jsonpath selector of the decoder, `$.events.['<key>'][0]`: the list of
matches is `[v]` when `json.events.<key>` is a non-empty array with head `v`,
and `[]` otherwise (missing key, non-array value, or empty array). -/
def selectFirst (j : Json) (key : String) : List Json :=
  match j.getField "events" with
  | some ev =>
    match ev.getField key with
    | some (.arr (x :: _)) => [x]
    | _ => []
  | none => []

/-- The `serde_json::from_value::<String>(vs[0]).unwrap()` step of the decoder:
indexing an empty match list or a non-string value is a panic, modelled as an
error carrying the offending key. -/
def firstString (vs : List Json) (key : String) : Except String String :=
  match vs with
  | [] => .error key
  | v :: _ =>
    match v with
    | .str s => .ok s
    | _ => .error key

/-- Extraction of one required scalar field of the confirmation event. -/
def getScalar (j : Json) (key : String) : Except String String :=
  firstString (selectFirst j key) key

/-- Modelled from the spec: the inner parse pass of
`serde_json::from_str::<Vec<Address>>` (serde_json is an external crate) on
the fragment it meets here — a JSON string literal: characters up to the
closing quote, rejecting escapes (canonical addresses contain none). -/
def parseStringChars : List Char → Option (List Char × List Char)
  | [] => none
  | c :: rest =>
    if c = '"' then some ([], rest)
    else if c = '\\' then none
    else
      match parseStringChars rest with
      | some (s, r) => some (c :: s, r)
      | none => none

/-- Deserializing one address from its string characters: `serde` validation
of the canonical encoding. -/
def charsToAddress (cs : List Char) : Option Address :=
  if h : cs.all addrChar = true then some ⟨String.mk cs, h⟩ else none

/-- Comma-separated quoted address strings up to the closing bracket, with
fuel bounding the number of elements.  Returns the parsed addresses and the
unconsumed remainder. -/
def parseItems : Nat → List Char → Option (List Address × List Char)
  | 0, _ => none
  | fuel + 1, cs =>
    match cs with
    | [] => none
    | c :: rest =>
      if c = '"' then
        match parseStringChars rest with
        | some (s, r1) =>
          match charsToAddress s with
          | some a =>
            match r1 with
            | [] => none
            | c2 :: r2 =>
              if c2 = ',' then
                match parseItems fuel r2 with
                | some (as, r) => some (a :: as, r)
                | none => none
              else if c2 = ']' then some ([a], r2)
              else none
          | none => none
        | none => none
      else none

/-- Array parse at the character level: opening bracket, then either an
immediately closing bracket or the comma-separated items; the whole input
must be consumed. -/
def parseArrayChars : List Char → Option (List Address)
  | [] => none
  | c :: rest =>
    if c = '[' then
      match rest with
      | [] => none
      | c2 :: rest2 =>
        if c2 = ']' then (if rest2 = [] then some [] else none)
        else
          match parseItems rest.length rest with
          | some (as, []) => some as
          | _ => none
    else none

/-- Modelled from the spec: `serde_json::from_str::<Vec<Address>>(&raw)` on a
JSON array of address strings. -/
def parseAddrArray (s : String) : Option (List Address) :=
  parseArrayChars s.data

/-- The `match initialized_accounts` arm of the decoder (lines 566-583): a
non-empty match list must hold a JSON string that itself parses as an address
array (both `unwrap`s model as errors); an empty match list — key absent,
value not an array, or empty array — yields the empty list, not an error. -/
def decodeInitializedAccounts (vs : List Json) : Except String (List Address) :=
  match vs with
  | [] => .ok []
  | v :: _ =>
    match v with
    | .str raw =>
      match parseAddrArray raw with
      | some l => .ok l
      | none => .error "applied.initialized_accounts"
    | _ => .error "applied.initialized_accounts"

/-- The decoded confirmation result, `TxResponse` (lines 546-554). -/
structure TxResponse where
  info : String
  height : String
  hash : String
  code : String
  gas_used : String
  initialized_accounts : List Address
deriving DecidableEq

/-- The `From<serde_json::Value> for TxResponse` conversion (lines 556-593).
Every Rust `unwrap` panic is an `Except.error`; the steps appear in the
source's panic order: the doubly encoded `initialized_accounts` is decoded
first (lines 577-580), then the five scalar fields in declaration order
(lines 585-589). -/
def TxResponse.fromJson (j : Json) : Except String TxResponse :=
  match decodeInitializedAccounts
      (selectFirst j "applied.initialized_accounts") with
  | .error e => .error e
  | .ok inits =>
    match getScalar j "applied.info" with
    | .error e => .error e
    | .ok infoV =>
      match getScalar j "applied.height" with
      | .error e => .error e
      | .ok heightV =>
        match getScalar j "applied.hash" with
        | .error e => .error e
        | .ok hashV =>
          match getScalar j "applied.code" with
          | .error e => .error e
          | .ok codeV =>
            match getScalar j "applied.gas_used" with
            | .error e => .error e
            | .ok gasV => .ok ⟨infoV, heightV, hashV, codeV, gasV, inits⟩

/-- Serialization of the address list into the characters after the opening
bracket, closing bracket included: the shape `serde_json` emits for a
`Vec<Address>` (compact form, no whitespace). -/
def encodeItems : List Address → List Char
  | [] => [']']
  | [a] => '"' :: (a.enc.data ++ ['"', ']'])
  | a :: rest => '"' :: (a.enc.data ++ ['"', ','] ++ encodeItems rest)

/-- The documented double encoding, inner level: the address list serialized
to a JSON array string. -/
def encodeAddrList (l : List Address) : String :=
  String.mk ('[' :: encodeItems l)

/-- The confirmation event map carrying the five scalar fields and the
documented double encoding of `initialized_accounts`: the JSON array string
placed as the sole element of the event value array under the
`applied.initialized_accounts` key. -/
def mkConfirmationEvent (info height hashv code gas : String)
    (l : List Address) : Json :=
  .obj [("events", .obj
    [ ("applied.info", .arr [.str info])
    , ("applied.height", .arr [.str height])
    , ("applied.hash", .arr [.str hashv])
    , ("applied.code", .arr [.str code])
    , ("applied.gas_used", .arr [.str gas])
    , ("applied.initialized_accounts", .arr [.str (encodeAddrList l)])
    ])]

/-- Modelled from the spec: the fingerprint is a content hash of the signed
transaction's wire bytes (`hash_tx` lives in
`tendermint_websocket_client.rs`, outside `src/`); modelled as an injective
digest of the byte sequence. -/
structure Fingerprint where
  digest : List Nat
deriving DecidableEq

/-- The `hash_tx(&tx_bytes)` computation (line 527). -/
def hashTx (bytes : List Nat) : Fingerprint :=
  ⟨bytes⟩

/-- Observable operations issued by the submission pipeline, in issue order. -/
inductive Op where
  | openConn : Op
  | computeFingerprint (bytes : List Nat) : Op
  | subscribe (fp : Fingerprint) : Op
  | broadcast (bytes : List Nat) : Op
  | receive : Op
  | unsubscribe : Op
  | closeConn : Op
  | dryRunCall (bytes : List Nat) : Op
deriving DecidableEq

/-- Modelled from the spec: the per-step outcomes of the external
`TendermintWebsocketClient` (open / subscribe / broadcast ack / received
event / unsubscribe), left fully non-deterministic as a parameter so every
control path of `broadcast_tx` is exercised. -/
structure Transport where
  openOk : Bool
  subscribeOk : Bool
  broadcastOk : Bool
  receiveResult : Option Json
  unsubscribeOk : Bool

/-- Failure cases of `broadcast_tx`: each `?` early return, plus the decoder
panic modelled as an error. -/
inductive BroadcastError where
  | openFailed : BroadcastError
  | subscribeFailed : BroadcastError
  | broadcastRejected : BroadcastError
  | receiveFailed : BroadcastError
  | decodeFailed (msg : String) : BroadcastError
  | unsubscribeFailed : BroadcastError
deriving DecidableEq

/-- The `broadcast_tx` function (lines 516-544) as a trace of issued
operations plus its returned value, for a given transport behaviour:
open the connection (`?`), build the query — which computes
`hash_tx(&tx_bytes)` — subscribe (`?`), `broadcast_tx_sync` (`?`), await the
response (`?`), decode it (panics model as errors), then unsubscribe (`?`)
and close.  Each `?` returns early, issuing nothing further. -/
def broadcastTx (t : Transport) (txBytes : List Nat) :
    List Op × Except BroadcastError TxResponse :=
  if t.openOk = false then ([.openConn], .error .openFailed)
  else
    let pre : List Op :=
      [.openConn, .computeFingerprint txBytes, .subscribe (hashTx txBytes)]
    if t.subscribeOk = false then (pre, .error .subscribeFailed)
    else if t.broadcastOk = false then
      (pre ++ [.broadcast txBytes], .error .broadcastRejected)
    else
      match t.receiveResult with
      | none => (pre ++ [.broadcast txBytes, .receive], .error .receiveFailed)
      | some j =>
        match TxResponse.fromJson j with
        | .error e =>
          (pre ++ [.broadcast txBytes, .receive], .error (.decodeFailed e))
        | .ok parsed =>
          if t.unsubscribeOk = false then
            (pre ++ [.broadcast txBytes, .receive, .unsubscribe],
              .error .unsubscribeFailed)
          else
            (pre ++ [.broadcast txBytes, .receive, .unsubscribe, .closeConn],
              .ok parsed)

/-- Scan of a trace validating the ordering invariant: every broadcast of
bytes `b` must be preceded by a subscription registered for the fingerprint
`hashTx b` — the fake transport of the spec's testable property. -/
def checkOrdered : List Op → List Fingerprint → Bool
  | [], _ => true
  | op :: rest, subs =>
    match op with
    | .subscribe fp => checkOrdered rest (fp :: subs)
    | .broadcast b => decide (hashTx b ∈ subs) && checkOrdered rest subs
    | _ => checkOrdered rest subs

/-- A trace never broadcasts before the matching subscription exists. -/
def wellOrdered (tr : List Op) : Bool :=
  checkOrdered tr []

/-- Scan of a trace checking that no fingerprint computation happens once the
connection has been opened; the flag records whether an `openConn` has been
seen. -/
def noFingerprintAfterOpen : List Op → Bool → Bool
  | [], _ => true
  | op :: rest, opened =>
    match op with
    | .openConn => noFingerprintAfterOpen rest true
    | .computeFingerprint _ => !opened && noFingerprintAfterOpen rest opened
    | _ => noFingerprintAfterOpen rest opened

/-- Modelled from the spec: the external wallet store, a mapping from alias
to address. -/
abbrev Wallet : Type :=
  List (String × Address)

/-- Lookup of an alias in the wallet store. -/
def walletFind : Wallet → String → Option Address
  | [], _ => none
  | (al, ad) :: rest, key => if al = key then some ad else walletFind rest key

/-- Modelled from the spec: `Wallet::add_address` (the wallet lives outside
`src/`) — the store rejects the add when the alias already maps to a
different address, and otherwise records the binding and accepts. -/
def walletAdd (w : Wallet) (al : String) (addr : Address) : Wallet × Bool :=
  match walletFind w al with
  | some ad => if ad = addr then (w, true) else (w, false)
  | none => ((al, addr) :: w, true)

/-- One attempted `wallet.add_address` call of the reconciler loop, as
recorded in the run's trace: the 0-based index of the address in the
initialized-accounts sequence, the alias proposed by the hint/prompt logic,
the alias actually passed to the store (the address's own encoding when the
proposal was empty), the address, and whether the store accepted. -/
structure AddCall where
  ix : Nat
  proposed : String
  used : String
  addr : Address
  accepted : Bool
deriving DecidableEq

/-- The alias proposal of one loop iteration (lines 470-491): with a hint the
alias is the hint itself when there is exactly one account and the hint
followed by the decimal index otherwise; without a hint the next stdin line
is read. -/
def proposedAlias (hintOpt : Option String) (prompts : List String)
    (len ix : Nat) : String :=
  match hintOpt with
  | some hint => if len == 1 then hint else hint ++ toString ix
  | none => prompts.headD ""

/-- The alias actually handed to the store (lines 492-509): an explicitly
empty proposal falls back to the address's own canonical encoding. -/
def usedAlias (proposed : String) (addr : Address) : String :=
  if proposed.isEmpty then addr.enc else proposed

/-- Stdin lines remaining after one iteration: a line is consumed only by the
promptless branch. -/
def nextPrompts (hintOpt : Option String) (prompts : List String) :
    List String :=
  match hintOpt with
  | some _ => prompts
  | none => prompts.tail

/-- The `while !added` loop of `save_initialized_accounts` for one address
(lines 469-510), with explicit fuel for the retry loop and the list of
remaining stdin lines for the promptless branch: propose an alias, fall back
to the address's own encoding when the proposal is empty, attempt the store
add, and retry on rejection.  Returns the updated wallet, the add calls
attempted (in order), and the remaining stdin lines; `none` when the fuel
runs out before an add is accepted. -/
def assignOne (hintOpt : Option String) (len ix : Nat) (addr : Address) :
    Wallet → List String → Nat →
    Option (Wallet × List AddCall × List String)
  | _, _, 0 => none
  | w, prompts, fuel + 1 =>
    let proposed : String := proposedAlias hintOpt prompts len ix
    let prompts' : List String := nextPrompts hintOpt prompts
    let used : String := usedAlias proposed addr
    let step := walletAdd w used addr
    if step.2 then some (step.1, [⟨ix, proposed, used, addr, true⟩], prompts')
    else
      match assignOne hintOpt len ix addr step.1 prompts' fuel with
      | some (w2, calls, p2) =>
        some (w2, ⟨ix, proposed, used, addr, false⟩ :: calls, p2)
      | none => none

/-- The `for (ix, address) in ...enumerate()` loop of
`save_initialized_accounts` over the remaining (index, address) pairs. -/
def assignAll (hintOpt : Option String) (len fuel : Nat) :
    Wallet → List String → List (Nat × Address) →
    Option (Wallet × List AddCall × List String)
  | w, prompts, [] => some (w, [], prompts)
  | w, prompts, (ix, a) :: rest =>
    match assignOne hintOpt len ix a w prompts fuel with
    | some (w1, calls1, p1) =>
      match assignAll hintOpt len fuel w1 p1 rest with
      | some (w2, calls2, p2) => some (w2, calls1 ++ calls2, p2)
      | none => none
    | none => none

/-- Outcome of a reconciler run: final wallet, attempted add calls in order,
and the number of `wallet.save()` persistence calls. -/
structure SaveResult where
  wallet : Wallet
  calls : List AddCall
  persists : Nat
deriving DecidableEq

/-- The `save_initialized_accounts` function (lines 451-514): with an empty
address sequence the guarded block is skipped entirely — wallet untouched, no
add, no persist; otherwise every address is processed by the retry loop and
the wallet is saved exactly once at the end (a save error is merely printed,
so the persist call still counts). -/
def saveInitializedAccounts (w : Wallet) (hintOpt : Option String)
    (prompts : List String) (addrs : List Address) (fuel : Nat) :
    Option SaveResult :=
  if addrs.length = 0 then some ⟨w, [], 0⟩
  else
    match assignAll hintOpt addrs.length fuel w prompts addrs.enum with
    | some (w1, calls, _) => some ⟨w1, calls, 1⟩
    | none => none

/-- Result of a `submit_tx` run (lines 419-448): the operations issued, the
reconciler invocation — `none` when `save_initialized_accounts` was never
called, otherwise its outcome — the exit code when `safe_exit(1)` was
reached, and the `TxResponse` value produced by the run, if any. -/
structure SubmitResult where
  ops : List Op
  reconciler : Option (Option SaveResult)
  exitCode : Option Nat
  response : Option TxResponse

/-- The `submit_tx` function: under `--dry-run` the signed bytes go to the
dry-run RPC and nothing else happens; otherwise `broadcast_tx` runs, a
success hands its result to `save_initialized_accounts`, and a failure
prints the error and calls `safe_exit(1)`. -/
def submitTx (t : Transport) (dryRun : Bool) (w : Wallet)
    (hintOpt : Option String) (prompts : List String) (fuel : Nat)
    (txBytes : List Nat) : SubmitResult :=
  if dryRun then ⟨[.dryRunCall txBytes], none, none, none⟩
  else
    match broadcastTx t txBytes with
    | (tr, .ok result) =>
      ⟨tr,
        some (saveInitializedAccounts w hintOpt prompts
          result.initialized_accounts fuel),
        none, some result⟩
    | (tr, .error _) => ⟨tr, none, some 1, none⟩

/-! Helper lemmas: the double-encoding round trip. -/

theorem addrChar_safe (c : Char) (h : addrChar c = true) :
    ¬c = '"' ∧ ¬c = '\\' := by
  refine ⟨?_, ?_⟩ <;> rintro rfl <;> exact absurd h (by decide)

theorem parseStringChars_append (cs rest : List Char)
    (h : cs.all addrChar = true) :
    parseStringChars (cs ++ '"' :: rest) = some (cs, rest) := by
  induction cs with
  | nil => rfl
  | cons c cs ih =>
    rw [List.all_cons, Bool.and_eq_true] at h
    obtain ⟨hq, hb⟩ := addrChar_safe c h.1
    simp [parseStringChars, hq, hb, ih h.2]

theorem charsToAddress_enc (a : Address) :
    charsToAddress a.enc.data = some a := by
  obtain ⟨e, v⟩ := a
  obtain ⟨d⟩ := e
  simp [charsToAddress, v]

theorem parseItems_encodeItems (l : List Address) :
    ∀ fuel : Nat, l ≠ [] → l.length ≤ fuel →
      parseItems fuel (encodeItems l) = some (l, []) := by
  induction l with
  | nil => intro fuel hne; exact absurd rfl hne
  | cons a t ih =>
    intro fuel _ hlen
    cases fuel with
    | zero => simp at hlen
    | succ f =>
      cases t with
      | nil =>
        have hps := parseStringChars_append a.enc.data [']'] a.valid
        simp [encodeItems, parseItems, hps, charsToAddress_enc]
      | cons b t' =>
        have hps := parseStringChars_append a.enc.data
          (',' :: encodeItems (b :: t')) a.valid
        have iht := ih f (by simp) (by simp at hlen ⊢; omega)
        simp [encodeItems, parseItems, List.append_assoc, hps,
          charsToAddress_enc, iht]

theorem length_le_encodeItems (l : List Address) :
    l.length ≤ (encodeItems l).length := by
  induction l with
  | nil => simp [encodeItems]
  | cons a t ih =>
    cases t with
    | nil => simp [encodeItems]
    | cons b t' =>
      simp only [encodeItems, List.length_cons, List.length_append] at ih ⊢
      omega

theorem parse_encode_roundtrip (l : List Address) :
    parseAddrArray (encodeAddrList l) = some l := by
  cases l with
  | nil => rfl
  | cons a t =>
    obtain ⟨tail, htail⟩ : ∃ tail, encodeItems (a :: t) = '"' :: tail := by
      cases t <;> exact ⟨_, rfl⟩
    have hne : (a :: t) ≠ [] := by simp
    have hp := parseItems_encodeItems (a :: t) (encodeItems (a :: t)).length
      hne (length_le_encodeItems _)
    show parseArrayChars ('[' :: encodeItems (a :: t)) = some (a :: t)
    rw [htail] at hp ⊢
    simp only [List.length_cons] at hp
    simp [parseArrayChars, hp]

/-- A successful decode requires every one of the five scalar selectors to
have found an element. -/
theorem fromJson_ok_selectors {j : Json} {r : TxResponse}
    (h : TxResponse.fromJson j = .ok r) :
    selectFirst j "applied.info" ≠ [] ∧
    selectFirst j "applied.height" ≠ [] ∧
    selectFirst j "applied.hash" ≠ [] ∧
    selectFirst j "applied.code" ≠ [] ∧
    selectFirst j "applied.gas_used" ≠ [] := by
  unfold TxResponse.fromJson at h
  refine ⟨?_, ?_, ?_, ?_, ?_⟩ <;> intro hnil <;>
    simp only [getScalar, hnil, firstString] at h <;>
    (repeat' split at h) <;> simp_all

/-- Concrete addresses for the witness runs. -/
def addrA : Address := ⟨"aa", by decide⟩

def addrB : Address := ⟨"bb", by decide⟩

def addrC : Address := ⟨"cc", by decide⟩

/-- C3: for every confirmation event map in which any one of the five
required scalar fields (`info`, `height`, `hash`, `code`, `gas_used`) is
absent — its selector finds no element — decoding yields a decode failure;
no (partially populated) `TxResponse` is ever produced. -/
theorem fromJson_missing_scalar_fails (j : Json)
    (habs : selectFirst j "applied.info" = [] ∨
      selectFirst j "applied.height" = [] ∨
      selectFirst j "applied.hash" = [] ∨
      selectFirst j "applied.code" = [] ∨
      selectFirst j "applied.gas_used" = []) :
    ∃ e, TxResponse.fromJson j = .error e := by
  cases hfj : TxResponse.fromJson j with
  | error e => exact ⟨e, rfl⟩
  | ok r =>
    obtain ⟨h1, h2, h3, h4, h5⟩ := fromJson_ok_selectors hfj
    rcases habs with h | h | h | h | h <;> simp_all

theorem fromJson_missing_scalar_fails_witness :
    ∃ e, TxResponse.fromJson (Json.obj [("events", Json.obj
      [ ("applied.height", .arr [.str "1"])
      , ("applied.hash", .arr [.str "h"])
      , ("applied.code", .arr [.str "0"])
      , ("applied.gas_used", .arr [.str "9"])])]) = .error e :=
  fromJson_missing_scalar_fails _ (Or.inl rfl)

/-- C4: for every ordered list of addresses, applying the documented double
encoding — the list serialized to a JSON array string, that string placed as
the first element of the event value array under the
`applied.initialized_accounts` key — and then running the decoder recovers
exactly the original list of addresses in the original order. -/
theorem initialized_accounts_roundtrip (info height hashv code gas : String)
    (l : List Address) :
    TxResponse.fromJson (mkConfirmationEvent info height hashv code gas l) =
      .ok ⟨info, height, hashv, code, gas, l⟩ := by
  have h0 : selectFirst (mkConfirmationEvent info height hashv code gas l)
      "applied.initialized_accounts" = [.str (encodeAddrList l)] := rfl
  have h1 : selectFirst (mkConfirmationEvent info height hashv code gas l)
      "applied.info" = [.str info] := rfl
  have h2 : selectFirst (mkConfirmationEvent info height hashv code gas l)
      "applied.height" = [.str height] := rfl
  have h3 : selectFirst (mkConfirmationEvent info height hashv code gas l)
      "applied.hash" = [.str hashv] := rfl
  have h4 : selectFirst (mkConfirmationEvent info height hashv code gas l)
      "applied.code" = [.str code] := rfl
  have h5 : selectFirst (mkConfirmationEvent info height hashv code gas l)
      "applied.gas_used" = [.str gas] := rfl
  unfold TxResponse.fromJson
  simp only [getScalar]
  rw [h0, h1, h2, h3, h4, h5]
  simp [firstString, decodeInitializedAccounts, parse_encode_roundtrip]

/-- C5: for every confirmation event map in which the
`applied.initialized_accounts` selector finds no element — the key is absent,
or its value array is empty — while the five required scalar fields decode,
the decoder succeeds and produces a `TxResponse` whose
`initialized_accounts` is the empty sequence. -/
theorem fromJson_absent_inits_ok (j : Json) (i h ha c g : String)
    (h0 : selectFirst j "applied.initialized_accounts" = [])
    (h1 : getScalar j "applied.info" = .ok i)
    (h2 : getScalar j "applied.height" = .ok h)
    (h3 : getScalar j "applied.hash" = .ok ha)
    (h4 : getScalar j "applied.code" = .ok c)
    (h5 : getScalar j "applied.gas_used" = .ok g) :
    TxResponse.fromJson j = .ok ⟨i, h, ha, c, g, []⟩ := by
  unfold TxResponse.fromJson
  rw [h0, h1, h2, h3, h4, h5]
  rfl

theorem fromJson_absent_inits_ok_witness :
    TxResponse.fromJson (Json.obj [("events", Json.obj
      [ ("applied.info", .arr [.str "i"])
      , ("applied.height", .arr [.str "1"])
      , ("applied.hash", .arr [.str "h"])
      , ("applied.code", .arr [.str "0"])
      , ("applied.gas_used", .arr [.str "9"])])]) =
      .ok ⟨"i", "1", "h", "0", "9", []⟩ :=
  fromJson_absent_inits_ok _ _ _ _ _ _ rfl rfl rfl rfl rfl rfl

/-- C6: when the account alias reconciler is given an empty sequence of
initialized addresses, it performs no wallet mutation (no add call) and no
persistence call, and leaves the wallet state unchanged — for every wallet,
alias hint, stdin content and fuel. -/
theorem save_empty_no_effect (w : Wallet) (hintOpt : Option String)
    (prompts : List String) (fuel : Nat) :
    saveInitializedAccounts w hintOpt prompts [] fuel = some ⟨w, [], 0⟩ :=
  rfl

/-- Every add call attempted by one hinted retry loop records the loop's
index, the loop's address, and the hint-derived alias proposal. -/
theorem assignOne_hint_calls (hint : String) (len ix : Nat) (addr : Address) :
    ∀ (fuel : Nat) (w : Wallet) (prompts : List String)
      (res : Wallet × List AddCall × List String),
      assignOne (some hint) len ix addr w prompts fuel = some res →
      ∀ c ∈ res.2.1, c.ix = ix ∧ c.addr = addr ∧
        c.proposed = (if len == 1 then hint else hint ++ toString ix) := by
  intro fuel
  induction fuel with
  | zero =>
    intro w prompts res hres
    exact absurd hres (by simp [assignOne])
  | succ f ih =>
    intro w prompts res hres c hc
    simp only [assignOne] at hres
    split at hres
    · obtain rfl : _ = res := Option.some.inj hres
      simp only [List.mem_singleton] at hc
      subst hc
      exact ⟨rfl, rfl, rfl⟩
    · split at hres
      · rename_i heq
        obtain rfl : _ = res := Option.some.inj hres
        rcases List.mem_cons.mp hc with rfl | hmem
        · exact ⟨rfl, rfl, rfl⟩
        · exact ih _ _ _ heq c hmem
      · exact absurd hres (by simp)

/-- Lifting `assignOne_hint_calls` over the enumerated address list: every
add call of a hinted reconciler run corresponds to one of the (index,
address) pairs. -/
theorem assignAll_hint_calls (hint : String) (len fuel : Nat) :
    ∀ (pairs : List (Nat × Address)) (w : Wallet) (prompts : List String)
      (res : Wallet × List AddCall × List String),
      assignAll (some hint) len fuel w prompts pairs = some res →
      ∀ c ∈ res.2.1, (c.ix, c.addr) ∈ pairs ∧
        c.proposed = (if len == 1 then hint else hint ++ toString c.ix) := by
  intro pairs
  induction pairs with
  | nil =>
    intro w prompts res hres c hc
    obtain rfl : _ = res := Option.some.inj hres
    exact absurd hc (by simp)
  | cons p rest ih =>
    intro w prompts res hres c hc
    obtain ⟨ix, a⟩ := p
    simp only [assignAll] at hres
    split at hres
    · rename_i hone
      split at hres
      · rename_i hrest
        obtain rfl : _ = res := Option.some.inj hres
        rcases List.mem_append.mp hc with hmem | hmem
        · obtain ⟨hix, haddr, hprop⟩ :=
            assignOne_hint_calls hint len ix a fuel w prompts _ hone c hmem
          subst hix haddr
          exact ⟨List.mem_cons_self _ _, hprop⟩
        · obtain ⟨hpair, hprop⟩ := ih _ _ _ hrest c hmem
          exact ⟨List.mem_cons_of_mem _ hpair, hprop⟩
      · exact absurd hres (by simp)
    · exact absurd hres (by simp)

/-- C7: in every hinted reconciler run, each attempted add call for the i-th
initialized address (0-based, as recorded in the call and tied to the
address list by lookup) proposes the hint itself when there is exactly one
address, and the hint concatenated with the decimal rendering of i
otherwise. -/
theorem hinted_alias_proposals (w : Wallet) (hint : String)
    (prompts : List String) (addrs : List Address) (fuel : Nat)
    (r : SaveResult) (c : AddCall)
    (hrun : saveInitializedAccounts w (some hint) prompts addrs fuel = some r)
    (hc : c ∈ r.calls) :
    addrs[c.ix]? = some c.addr ∧
      c.proposed =
        if addrs.length = 1 then hint else hint ++ toString c.ix := by
  unfold saveInitializedAccounts at hrun
  split at hrun
  · obtain rfl : _ = r := Option.some.inj hrun
    exact absurd hc (by simp)
  · split at hrun
    · rename_i w1 calls p1 hall
      obtain rfl : _ = r := Option.some.inj hrun
      obtain ⟨hpair, hprop⟩ :=
        assignAll_hint_calls hint addrs.length fuel addrs.enum w prompts _
          hall c hc
      refine ⟨List.mk_mem_enum_iff_getElem?.mp hpair, ?_⟩
      rw [hprop]
      by_cases hlen : addrs.length = 1 <;> simp [hlen]
    · exact absurd hrun (by simp)

theorem hinted_alias_proposals_witness :
    ([addrA, addrB, addrC] : List Address)[
        (⟨1, "foo1", "foo1", addrB, true⟩ : AddCall).ix]? =
      some (⟨1, "foo1", "foo1", addrB, true⟩ : AddCall).addr ∧
    (⟨1, "foo1", "foo1", addrB, true⟩ : AddCall).proposed =
      if ([addrA, addrB, addrC] : List Address).length = 1 then "foo"
      else "foo" ++ toString (⟨1, "foo1", "foo1", addrB, true⟩ : AddCall).ix :=
  hinted_alias_proposals [] "foo" [] [addrA, addrB, addrC] 1
    ⟨[("foo2", addrC), ("foo1", addrB), ("foo0", addrA)],
      [ ⟨0, "foo0", "foo0", addrA, true⟩
      , ⟨1, "foo1", "foo1", addrB, true⟩
      , ⟨2, "foo2", "foo2", addrC, true⟩], 1⟩
    ⟨1, "foo1", "foo1", addrB, true⟩ (by decide) (by decide)

/-- C1: in every run of the broadcast operation — successful or failed, for
any transaction bytes and hence any transaction kind — the trace of issued
operations never contains a broadcast that is not preceded by a subscription
registered for that transaction's fingerprint. -/
theorem broadcastTx_subscribe_before_broadcast (t : Transport)
    (bytes : List Nat) :
    wellOrdered (broadcastTx t bytes).1 = true := by
  obtain ⟨o, s, b, rr, u⟩ := t
  cases rr with
  | none =>
    cases o <;> cases s <;> cases b <;> cases u <;>
      simp [broadcastTx, wellOrdered, checkOrdered]
  | some j =>
    cases hfj : TxResponse.fromJson j <;>
      cases o <;> cases s <;> cases b <;> cases u <;>
        simp [broadcastTx, wellOrdered, checkOrdered, hfj]

/-- C2, counterexample: in a run of the protocol the fingerprint computation
(`hash_tx(&tx_bytes)`, line 527) happens after the connection is opened
(line 520-521), so the trace violates "computed before the connection is
opened": a fingerprint computation occurs although one already follows an
`openConn`. -/
theorem fingerprint_before_open_cex :
    Op.computeFingerprint [0] ∈
      (broadcastTx ⟨true, true, true, none, true⟩ [0]).1 ∧
    noFingerprintAfterOpen
      (broadcastTx ⟨true, true, true, none, true⟩ [0]).1 false = false := by
  decide

/-- C2, amended: in every run that opens the connection, the fingerprint is
computed exactly once — after the connection is opened and before the
subscription is registered — from exactly the byte sequence that every
broadcast operation of the run sends, and the subscription key is that
fingerprint. -/
theorem fingerprint_once_after_open (t : Transport) (bytes : List Nat)
    (h : t.openOk = true) :
    ∃ rest, (broadcastTx t bytes).1 =
        Op.openConn :: Op.computeFingerprint bytes ::
          Op.subscribe (hashTx bytes) :: rest ∧
      (∀ b, Op.computeFingerprint b ∉ rest) ∧
      (∀ b, Op.broadcast b ∈ (broadcastTx t bytes).1 → b = bytes) ∧
      (∀ fp, Op.subscribe fp ∈ (broadcastTx t bytes).1 → fp = hashTx bytes) := by
  obtain ⟨o, s, b, rr, u⟩ := t
  cases o
  · exact absurd h (by simp)
  · cases rr with
    | none =>
      cases s <;> cases b <;> cases u <;>
        (simp only [broadcastTx]
         refine ⟨_, rfl, ?_, ?_, ?_⟩ <;> simp)
    | some j =>
      cases hfj : TxResponse.fromJson j <;>
        cases s <;> cases b <;> cases u <;>
          (simp only [broadcastTx, hfj]
           refine ⟨_, rfl, ?_, ?_, ?_⟩ <;> simp)

theorem fingerprint_once_after_open_witness :
    ∃ rest, (broadcastTx ⟨true, false, false, none, false⟩ [1, 2]).1 =
        Op.openConn :: Op.computeFingerprint [1, 2] ::
          Op.subscribe (hashTx [1, 2]) :: rest ∧
      (∀ b, Op.computeFingerprint b ∉ rest) ∧
      (∀ b, Op.broadcast b ∈
        (broadcastTx ⟨true, false, false, none, false⟩ [1, 2]).1 →
        b = [1, 2]) ∧
      (∀ fp, Op.subscribe fp ∈
        (broadcastTx ⟨true, false, false, none, false⟩ [1, 2]).1 →
        fp = hashTx [1, 2]) :=
  fingerprint_once_after_open ⟨true, false, false, none, false⟩ [1, 2] rfl

/-- C8, counterexample: a run whose connection opens successfully and whose
broadcast is then rejected by the mempool returns the failure without ever
attempting the cleanup — neither an unsubscribe nor a close appears in its
trace, refuting "cleanup is attempted on every run in which the connection
was successfully opened". -/
theorem cleanup_skipped_cex :
    (broadcastTx ⟨true, true, false, none, true⟩ [0]).2 =
        .error .broadcastRejected ∧
    Op.openConn ∈ (broadcastTx ⟨true, true, false, none, true⟩ [0]).1 ∧
    Op.unsubscribe ∉ (broadcastTx ⟨true, true, false, none, true⟩ [0]).1 ∧
    Op.closeConn ∉ (broadcastTx ⟨true, true, false, none, true⟩ [0]).1 :=
  ⟨rfl, by decide, by decide, by decide⟩

/-- C8, amended: the cleanup is attempted only on fully successful runs — the
unsubscribe is issued exactly when open, subscribe, broadcast, receive and
decode all succeeded, and the close exactly when additionally the
unsubscribe succeeded; every earlier failure (subscription failure, mempool
rejection, receive failure, malformed confirmation payload) returns early
with no cleanup. -/
theorem cleanup_iff_full_success (t : Transport) (bytes : List Nat) :
    (Op.unsubscribe ∈ (broadcastTx t bytes).1 ↔
      (t.openOk = true ∧ t.subscribeOk = true ∧ t.broadcastOk = true ∧
        ∃ j r, t.receiveResult = some j ∧ TxResponse.fromJson j = .ok r)) ∧
    (Op.closeConn ∈ (broadcastTx t bytes).1 ↔
      (t.openOk = true ∧ t.subscribeOk = true ∧ t.broadcastOk = true ∧
        (∃ j r, t.receiveResult = some j ∧ TxResponse.fromJson j = .ok r) ∧
        t.unsubscribeOk = true)) := by
  obtain ⟨o, s, b, rr, u⟩ := t
  cases rr with
  | none =>
    cases o <;> cases s <;> cases b <;> cases u <;> simp [broadcastTx]
  | some j =>
    cases hfj : TxResponse.fromJson j <;>
      cases o <;> cases s <;> cases b <;> cases u <;>
        simp [broadcastTx, hfj]

/-- C9: whenever the run reaches the broadcast step and the mempool rejects
it, the submission produces no `TxResponse`, never invokes the account alias
reconciler (hence no wallet mutation and no persist), and exits with status
1. -/
theorem submit_reject_no_result (t : Transport) (w : Wallet)
    (hintOpt : Option String) (prompts : List String) (fuel : Nat)
    (bytes : List Nat) (ho : t.openOk = true) (hs : t.subscribeOk = true)
    (hb : t.broadcastOk = false) :
    (submitTx t false w hintOpt prompts fuel bytes).response = none ∧
    (submitTx t false w hintOpt prompts fuel bytes).reconciler = none ∧
    (submitTx t false w hintOpt prompts fuel bytes).exitCode = some 1 := by
  obtain ⟨o, s, b, rr, u⟩ := t
  cases o <;> cases s <;> cases b <;> simp_all [submitTx, broadcastTx]

theorem submit_reject_no_result_witness :
    (submitTx ⟨true, true, false, none, true⟩ false [] none [] 1
      [0]).response = none ∧
    (submitTx ⟨true, true, false, none, true⟩ false [] none [] 1
      [0]).reconciler = none ∧
    (submitTx ⟨true, true, false, none, true⟩ false [] none [] 1
      [0]).exitCode = some 1 :=
  submit_reject_no_result ⟨true, true, false, none, true⟩ [] none [] 1 [0]
    rfl rfl rfl

/-- C10: under the dry-run flag the submission issues exactly one operation,
the dry-run RPC call carrying the signed transaction bytes: the
subscribe/broadcast/confirm protocol is never entered, no `TxResponse` is
produced, the reconciler is never invoked and so the wallet store is
neither mutated nor persisted, and no failure exit occurs. -/
theorem submit_dry_run_only (t : Transport) (w : Wallet)
    (hintOpt : Option String) (prompts : List String) (fuel : Nat)
    (bytes : List Nat) :
    submitTx t true w hintOpt prompts fuel bytes =
      ⟨[.dryRunCall bytes], none, none, none⟩ :=
  rfl

end AnomaTx
